import Mathlib

/-!
Verification development for the DIP-switch Telegram bot (`src/bot.py`).

The embedding below translates the program's pure logic into Lean:

* `generate_dip_image` mirrors the renderer (bot.py lines 9-69): from a
  binary string it computes the canvas geometry and one slot record per
  character, recording which half of each slot is filled white and which
  is filled red, exactly as the drawing calls do.
* `Session` mirrors the per-user `context.user_data` dictionary: the two
  keys the program ever writes are `"lang"` (a string) and `"bits"` (a
  Python int), each possibly absent.
* `start`, `language_selected`, `show_bit_options`, `bits_selected` and
  `handle_number` mirror the handlers (bot.py lines 86-173).  Each takes
  the session and returns the session after the call together with the
  reply that is sent (`none` when the Python code raises before replying,
  e.g. a `KeyError` from `LANG_TEXTS[lang]` on an unsupported language).
* `step` mirrors the dispatch set up in `main` (bot.py lines 190-193):
  `/start` goes to `start`, callback payloads matching prefix `lang_` go
  to `language_selected`, those matching prefix `bits_` go to
  `bits_selected`, and plain text goes to `handle_number`.

Python builtins are modelled as follows: `format(address, f"0{bits}b")`
is `pyFormatBin` (minimal binary digits, most significant first, left
padded with '0'); `s[::-1]` is `List.reverse`; `s.split("_")` is
`pySplitUnd`; `int(s)` on a callback-payload suffix is `pyParseInt`
(optional sign followed by decimal digits; the further forms Python
accepts, such as surrounding whitespace or digit-group underscores, never
arise for the payloads considered here).  The outcome of
`int(update.message.text.strip())` on free-form user text is abstracted
as an `Option Int` argument to `handle_number`: `none` when the Python
call raises `ValueError`, `some a` when it yields the integer `a`.
-/

/-! ## Data model: rendered image -/

/-- One DIP switch slot as drawn by the loop at bot.py lines 48-67:
its frame position, the fill colours of the upper and lower halves of the
frame interior, and the 1-based numeric label drawn below it. -/
structure DipSlot where
  x : Nat
  y : Nat
  upperFill : String
  lowerFill : String
  label : Nat
deriving DecidableEq

/-- The rendered picture: canvas size, panel colour, the "ON" caption and
the list of slots, left to right. -/
structure DipImage where
  width : Nat
  height : Nat
  panelFill : String
  onLabel : String
  slots : List DipSlot
deriving DecidableEq

/-- Placeholder slot used as the default of `List.getD` lookups. -/
def dummySlot : DipSlot := { x := 0, y := 0, upperFill := "", lowerFill := "", label := 0 }

/-- Slot `i` (0-based) for character `bit`: bot.py lines 49-67.
`x = margin + i * (switch_width + 6)`, `y = dip_top = 50`; for `bit == '1'`
the upper half interior is white and the lower half red (`#cc0000`),
otherwise the lower half is white and the upper half red. -/
def mkSlot (i : Nat) (bit : Char) : DipSlot :=
  { x := 20 + i * (32 + 6)
    y := 50
    upperFill := if bit = '1' then "white" else "#cc0000"
    lowerFill := if bit = '1' then "#cc0000" else "white"
    label := i + 1 }

/-- `for i, bit in enumerate(binary_str)` with starting index `i`. -/
def buildSlots : Nat → List Char → List DipSlot
  | _, [] => []
  | i, bit :: rest => mkSlot i bit :: buildSlots (i + 1) rest

/-- The renderer, bot.py lines 9-69.  Canvas width and height are computed
at lines 25-26; the red panel and "ON" caption at lines 32-46; the slots by
the loop at lines 48-67. -/
def generate_dip_image (binary_str : String) : DipImage :=
  let num_switches := binary_str.length
  let switch_width := 32
  let switch_height := 80
  let spacing := 6
  let margin := 20
  { width := num_switches * (switch_width + spacing) + margin * 2 - spacing
    height := switch_height + 80
    panelFill := "#cc0000"
    onLabel := "ON"
    slots := buildSlots 0 binary_str.toList }

/-- A slot shows the ON position: white upper half, red lower half. -/
def slotOn (s : DipSlot) : Bool :=
  s.upperFill == "white" && s.lowerFill == "#cc0000"

/-- Read the rendered slot states back as a number, slot order taken as
least-significant-bit first. -/
def decodeImage (img : DipImage) : Nat :=
  img.slots.foldr (fun s acc => (if slotOn s then 1 else 0) + 2 * acc) 0

/-! ## Binary formatting (Python `format(n, f"0{w}b")` and `[::-1]`) -/

/-- Least-significant-first binary digits of `n` as characters, empty for 0.
Fuel-indexed so that it is structurally recursive; `toBitsLSB` instantiates
the fuel with `n` itself, which always suffices. -/
def toBitsGo : Nat → Nat → List Char
  | _, 0 => []
  | 0, _ + 1 => []
  | fuel + 1, n + 1 =>
      (if (n + 1) % 2 = 1 then '1' else '0') :: toBitsGo fuel ((n + 1) / 2)

/-- Least-significant-first binary digits of `n` (empty for `n = 0`). -/
def toBitsLSB (n : Nat) : List Char := toBitsGo n n

/-- Binary digits of `n`, most significant first, as Python `format(n, "b")`
produces them (`"0"` for zero). -/
def msbDigits (n : Nat) : List Char :=
  if n = 0 then ['0'] else (toBitsLSB n).reverse

/-- Python `format(n, f"0{w}b")`: the binary digits of `n`, left padded
with `'0'` to width `w` (bot.py line 164). -/
def pyFormatBin (n w : Nat) : List Char :=
  List.replicate (w - (msbDigits n).length) '0' ++ msbDigits n

/-- The reversed string `binary[::-1]` of bot.py line 165: the width-`w`
binary representation of `n`, least significant bit first. -/
def lsbChars (n w : Nat) : List Char := (pyFormatBin n w).reverse

/-- The string handed to `generate_dip_image` at bot.py line 166. -/
def lsbBinary (address bits : Nat) : String := String.mk (lsbChars address bits)

/-- The image produced for a valid address at bot.py lines 164-166. -/
def renderedImage (address bits : Nat) : DipImage :=
  generate_dip_image (lsbBinary address bits)

/-! ## Sessions, localized texts and replies -/

/-- Per-user session state: the `"lang"` and `"bits"` entries of
`context.user_data` (absent until the corresponding handler stores them). -/
structure Session where
  lang : Option String
  bits : Option Int
deriving DecidableEq

/-- A fresh user's empty `user_data` dictionary. -/
def freshSession : Session := { lang := none, bits := none }

/-- The per-language text table entries of `LANG_TEXTS` (bot.py 73-82). -/
structure LangTexts where
  choose_bits : String
  send_number : String
deriving DecidableEq

/-- The `"ua"` entry of `LANG_TEXTS`. -/
def uaTexts : LangTexts :=
  { choose_bits := "Оберіть кількість бітів:"
    send_number := "Надішліть число адреси, і я згенерую DIP Switch" }

/-- The `"cz"` entry of `LANG_TEXTS`. -/
def czTexts : LangTexts :=
  { choose_bits := "Zvolte počet bitů:"
    send_number := "Pošlete mi číslo adresy a vygeneruji DIP Switch" }

/-- The `LANG_TEXTS` dictionary, bot.py lines 73-82; `none` models the
`KeyError` raised on lookup of any other key. -/
def LANG_TEXTS : String → Option LangTexts
  | "ua" => some uaTexts
  | "cz" => some czTexts
  | _ => none

/-- What a handler sends back: a plain text message, a photo, or a text
with an attached row of buttons (each button named by its callback
payload). -/
inductive Reply where
  | text (s : String)
  | photo (img : DipImage)
  | options (s : String) (buttons : List String)
deriving DecidableEq

/-- The language keyboard of `start`, bot.py lines 94-97, as the list of
its callback payloads. -/
def langKeyboard : List String := ["lang_ua", "lang_cz"]

/-- The bit-width keyboard of `show_bit_options`, bot.py lines 121-126. -/
def bitsKeyboard : List String := ["bits_6", "bits_8", "bits_10", "bits_12"]

/-! ## Python string helpers used on callback payloads -/

/-- Python `p.split("_")` on the character list of `p`. -/
def pySplitUnd : List Char → List (List Char)
  | [] => [[]]
  | c :: cs =>
      if c = '_' then [] :: pySplitUnd cs
      else
        match pySplitUnd cs with
        | [] => [[c]]
        | g :: gs => (c :: g) :: gs

/-- Decimal digit run to a number: `none` unless the list is a nonempty
run of ASCII digits. -/
def digitsToNat (ds : List Char) : Option Nat :=
  if ds ≠ [] ∧ ds.all Char.isDigit then
    some (ds.foldl (fun a c => a * 10 + (c.toNat - 48)) 0)
  else none

/-- Python `int(s)` restricted to an optional sign followed by decimal
digits, which covers every callback-payload suffix considered here;
`none` models the `ValueError` raised otherwise. -/
def pyParseInt : List Char → Option Int
  | '-' :: rest => (digitsToNat rest).map (fun n => -(n : Int))
  | '+' :: rest => (digitsToNat rest).map (fun n => (n : Int))
  | s => (digitsToNat s).map (fun n => (n : Int))

/-- `pre` is a prefix of `s` (the routing patterns `"^lang_"`, `"^bits_"`
of bot.py lines 191-192). -/
def startsWithChars : List Char → List Char → Bool
  | [], _ => true
  | _ :: _, [] => false
  | p :: ps, c :: cs => p == c && startsWithChars ps cs

/-! ## Handlers -/

/-- `show_bit_options`, bot.py lines 113-133: look up the session language
(default `"ua"`), and offer the four bit-width buttons.  `none` models the
`KeyError` when the stored language is not a `LANG_TEXTS` key. -/
def show_bit_options (sess : Session) : Option Reply :=
  (LANG_TEXTS (sess.lang.getD "ua")).map
    (fun t => Reply.options t.choose_bits bitsKeyboard)

/-- `start`, bot.py lines 86-99: with a language on record, show the
bit-width options; otherwise offer the two language buttons.  The session
is never written. -/
def start (sess : Session) : Session × Option Reply :=
  if sess.lang.isSome then (sess, show_bit_options sess)
  else (sess, some (Reply.options "Виберіть мову / Zvolte jazyk:" langKeyboard))

/-- `language_selected`, bot.py lines 102-110: store `payload.split("_")[1]`
as the language, then show the (now localized) bit options.  A missing
index 1 means `split("_")[1]` raises before the assignment. -/
def language_selected (sess : Session) (payload : String) : Session × Option Reply :=
  match (pySplitUnd payload.toList)[1]? with
  | none => (sess, none)
  | some part =>
      let sess' : Session := { sess with lang := some (String.mk part) }
      match show_bit_options sess' with
      | none => (sess', none)
      | some r => (sess', some r)

/-- `bits_selected`, bot.py lines 136-147: store
`int(payload.split("_")[1])` as the bit width, then edit the prompt to the
localized `send_number` text with the range maximum `(2 ** bits) - 1`
appended.  A parse failure raises before the assignment; an unsupported
stored language raises after it ( `LANG_TEXTS[lang]` at line 146).  The
rendered maximum text is faithful for the nonnegative widths every claim
concerns (for a negative stored width Python would format a float here). -/
def bits_selected (sess : Session) (payload : String) : Session × Option Reply :=
  match ((pySplitUnd payload.toList)[1]?).bind pyParseInt with
  | none => (sess, none)
  | some n =>
      let sess' : Session := { sess with bits := some n }
      match LANG_TEXTS (sess'.lang.getD "ua") with
      | none => (sess', none)
      | some t =>
          (sess', some (Reply.text
            (t.send_number ++ " (0-" ++ toString ((2 : Int) ^ n.toNat - 1) ++ ")")))

/-- Message of bot.py line 173 (the `except` branch). -/
def invalidNumberText : String :=
  "Будь ласка, введіть правильне число / Zadejte platné číslo."

/-- Message of bot.py line 159. -/
def negativeNumberText : String :=
  "Число не може бути від\x27ємним / Číslo nemůže být záporné."

/-- Message of bot.py line 162, `f"Число занадто велике! Максимум для {bits} бітів: {max_value}."`
(faithful for the nonnegative widths every claim concerns). -/
def tooBigText (bits : Int) : String :=
  "Число занадто велике! Максимум для " ++ toString bits ++ " бітів: "
    ++ toString ((2 : Int) ^ bits.toNat - 1) ++ "."

/-- The range test `address > max_value` of bot.py line 161, evaluated at a
nonnegative `address` (the negative case returned at line 160).  For a
nonnegative stored width this is `address > 2 ^ bits - 1`; for a negative
width Python computes the float `2.0 ** bits - 1 ∈ (-1, 0)`, which every
nonnegative address exceeds. -/
def exceedsMax (address bits : Int) : Bool :=
  if 0 ≤ bits then decide ((2 : Int) ^ bits.toNat - 1 < address) else true

/-- `handle_number`, bot.py lines 150-173, as a function of the session and
the outcome of `int(update.message.text.strip())` (`none` = `ValueError`).
Width defaults to 8 (line 156); checks run in source order: parse failure,
negative, out of range; otherwise the LSB-first binary string is rendered
(lines 164-166).  The session is never written. -/
def handle_number (sess : Session) (parsed : Option Int) : Session × Reply :=
  match parsed with
  | none => (sess, Reply.text invalidNumberText)
  | some address =>
      let bits := sess.bits.getD 8
      if address < 0 then (sess, Reply.text negativeNumberText)
      else if exceedsMax address bits then (sess, Reply.text (tooBigText bits))
      else (sess, Reply.photo (renderedImage address.toNat bits.toNat))

/-! ## Event dispatch (bot.py lines 190-193) -/

/-- An inbound event: the `/start` command, a button press carrying its
callback payload, or a plain text message carrying the outcome of parsing
its text as an integer. -/
inductive Event where
  | start
  | button (payload : String)
  | text (parsed : Option Int)
deriving DecidableEq

/-- One dispatch round of `main`: commands to `start`, payloads matching
`"^lang_"` to `language_selected`, payloads matching `"^bits_"` to
`bits_selected`, other button payloads to no handler, text to
`handle_number`; the resulting session is kept. -/
def step (sess : Session) (e : Event) : Session :=
  match e with
  | Event.start => (start sess).1
  | Event.button p =>
      if startsWithChars "lang_".toList p.toList then (language_selected sess p).1
      else if startsWithChars "bits_".toList p.toList then (bits_selected sess p).1
      else sess
  | Event.text parsed => (handle_number sess parsed).1

/-- The session reached from a fresh session by a sequence of events. -/
def runEvents (es : List Event) : Session := es.foldl step freshSession

/-- The payloads of buttons the bot itself ever offers. -/
def allowedPayloads : List String := langKeyboard ++ bitsKeyboard

/-- An event the bot's own interface can generate: any command or text,
but button payloads only from the keyboards the bot sends. -/
def goodEvent : Event → Bool
  | Event.button p => p ∈ allowedPayloads
  | _ => true

/-- The session invariant of spec §3: a stored language is one of the two
supported locales and a stored bit width is one of the four offered. -/
def sessionInv (s : Session) : Bool :=
  (match s.lang with
   | none => true
   | some l => l == "ua" || l == "cz") &&
  (match s.bits with
   | none => true
   | some b => b == 6 || b == 8 || b == 10 || b == 12)

/-- The session language, when present, is a `LANG_TEXTS` key (used as the
hypothesis of the claims about prompt texts). -/
def langOk (sess : Session) : Prop :=
  sess.lang.getD "ua" = "ua" ∨ sess.lang.getD "ua" = "cz"

/-- Read characters back as a binary number, head = least significant bit. -/
def decodeChars : List Char → Nat
  | [] => 0
  | c :: cs => (if c = '1' then 1 else 0) + 2 * decodeChars cs

/-! ## Properties of the binary formatting pipeline -/

lemma toBitsGo_zero (f : Nat) : toBitsGo f 0 = [] := by
  cases f <;> rfl

lemma toBitsGo_congr : ∀ f1 f2 n : Nat, n ≤ f1 → n ≤ f2 → toBitsGo f1 n = toBitsGo f2 n := by
  intro f1
  induction f1 with
  | zero =>
    intro f2 n h1 _
    have : n = 0 := by omega
    subst this
    rw [toBitsGo_zero, toBitsGo_zero]
  | succ k ih =>
    intro f2 n h1 h2
    match n with
    | 0 => rw [toBitsGo_zero, toBitsGo_zero]
    | m + 1 =>
      match f2 with
      | j + 1 =>
        show _ :: toBitsGo k ((m + 1) / 2) = _ :: toBitsGo j ((m + 1) / 2)
        rw [ih j ((m + 1) / 2) (by omega) (by omega)]

lemma toBitsLSB_zero : toBitsLSB 0 = [] := rfl

lemma toBitsLSB_pos (n : Nat) (h : 0 < n) :
    toBitsLSB n = (if n % 2 = 1 then '1' else '0') :: toBitsLSB (n / 2) := by
  match n with
  | m + 1 =>
    show toBitsGo (m + 1) (m + 1) = _
    show _ :: toBitsGo m ((m + 1) / 2) = _
    rw [toBitsGo_congr m ((m + 1) / 2) ((m + 1) / 2) (by omega) (by omega)]
    rfl

lemma toBitsLSB_getD (n : Nat) : ∀ i : Nat,
    (toBitsLSB n).getD i '0' = if n.testBit i then '1' else '0' := by
  induction n using Nat.strong_induction_on with
  | _ n ih =>
    intro i
    match n with
    | 0 => simp [toBitsLSB_zero, List.getD]
    | m + 1 =>
      rw [toBitsLSB_pos (m + 1) (Nat.succ_pos m)]
      match i with
      | 0 =>
        rw [Nat.testBit_zero, List.getD_cons_zero]
        rcases Nat.mod_two_eq_zero_or_one (m + 1) with h | h <;> simp [h]
      | i + 1 =>
        rw [Nat.testBit_add_one, List.getD_cons_succ]
        exact ih ((m + 1) / 2) (by omega) i

lemma toBitsLSB_length_le : ∀ {n w : Nat}, n < 2 ^ w → (toBitsLSB n).length ≤ w := by
  intro n
  induction n using Nat.strong_induction_on with
  | _ n ih =>
    intro w hw
    match n with
    | 0 => simp [toBitsLSB_zero]
    | m + 1 =>
      rw [toBitsLSB_pos (m + 1) (Nat.succ_pos m)]
      have h1 : 1 ≤ w := by
        rcases Nat.eq_zero_or_pos w with h | h
        · subst h; simp at hw
        · exact h
      have hpow : 2 ^ w = 2 * 2 ^ (w - 1) := by
        rw [← pow_succ']
        congr 1
        omega
      have h2 : (m + 1) / 2 < 2 ^ (w - 1) := by
        rw [hpow] at hw
        omega
      have := ih ((m + 1) / 2) (by omega) h2
      simp only [List.length_cons]
      omega

lemma lt_two_pow_toBitsLSB (n : Nat) : n < 2 ^ (toBitsLSB n).length := by
  induction n using Nat.strong_induction_on with
  | _ n ih =>
    match n with
    | 0 => simp [toBitsLSB_zero]
    | m + 1 =>
      rw [toBitsLSB_pos (m + 1) (Nat.succ_pos m)]
      have := ih ((m + 1) / 2) (by omega)
      simp only [List.length_cons, pow_succ]
      omega

lemma msbDigits_zero : msbDigits 0 = ['0'] := rfl

lemma msbDigits_pos {n : Nat} (h : 0 < n) : msbDigits n = (toBitsLSB n).reverse := by
  unfold msbDigits
  rw [if_neg (Nat.pos_iff_ne_zero.mp h)]

lemma lsbChars_eq {n w : Nat} (hw : 1 ≤ w) :
    lsbChars n w = toBitsLSB n ++ List.replicate (w - (toBitsLSB n).length) '0' := by
  unfold lsbChars pyFormatBin
  by_cases h0 : n = 0
  · subst h0
    rw [msbDigits_zero, toBitsLSB_zero]
    simp only [List.length_singleton, List.reverse_append, List.reverse_cons,
      List.reverse_nil, List.nil_append, List.reverse_replicate,
      List.singleton_append, List.length_nil, Nat.sub_zero]
    rw [← List.replicate_succ]
    congr 1
    omega
  · rw [msbDigits_pos (Nat.pos_of_ne_zero h0)]
    simp only [List.length_reverse, List.reverse_append, List.reverse_reverse,
      List.reverse_replicate]

lemma lsbChars_length {n w : Nat} (hw : 1 ≤ w) (hn : n < 2 ^ w) :
    (lsbChars n w).length = w := by
  rw [lsbChars_eq hw]
  have := toBitsLSB_length_le hn
  simp only [List.length_append, List.length_replicate]
  omega

lemma lsbChars_getD {n w : Nat} (hw : 1 ≤ w) (i : Nat) :
    (lsbChars n w).getD i '0' = if n.testBit i then '1' else '0' := by
  rw [lsbChars_eq hw]
  by_cases h : i < (toBitsLSB n).length
  · rw [List.getD_append _ _ _ _ h]
    exact toBitsLSB_getD n i
  · push_neg at h
    have hfalse : n.testBit i = false := by
      apply Nat.testBit_lt_two_pow
      calc n < 2 ^ (toBitsLSB n).length := lt_two_pow_toBitsLSB n
        _ ≤ 2 ^ i := Nat.pow_le_pow_right (by norm_num) h
    rw [hfalse, List.getD_append_right _ _ _ _ h]
    simp

lemma decodeChars_append (l1 l2 : List Char) :
    decodeChars (l1 ++ l2) = decodeChars l1 + 2 ^ l1.length * decodeChars l2 := by
  induction l1 with
  | nil => simp [decodeChars]
  | cons c cs ih =>
    simp only [List.cons_append, decodeChars, List.append_eq, ih, List.length_cons, pow_succ]
    ring

lemma decodeChars_replicate_zero (k : Nat) : decodeChars (List.replicate k '0') = 0 := by
  induction k with
  | zero => rfl
  | succ k ih => simp [List.replicate_succ, decodeChars, ih]

lemma decodeChars_toBitsLSB (n : Nat) : decodeChars (toBitsLSB n) = n := by
  induction n using Nat.strong_induction_on with
  | _ n ih =>
    match n with
    | 0 => rfl
    | m + 1 =>
      rw [toBitsLSB_pos (m + 1) (Nat.succ_pos m)]
      show (if (if (m + 1) % 2 = 1 then '1' else '0') = '1' then 1 else 0)
          + 2 * decodeChars (toBitsLSB ((m + 1) / 2)) = m + 1
      rw [ih ((m + 1) / 2) (by omega)]
      rcases Nat.mod_two_eq_zero_or_one (m + 1) with h | h <;> simp [h] <;> omega

/-! ## Properties of the slot builder -/

lemma buildSlots_length (l : List Char) : ∀ i : Nat, (buildSlots i l).length = l.length := by
  induction l with
  | nil => intro i; rfl
  | cons c cs ih => intro i; simp [buildSlots, ih]

lemma buildSlots_getD (l : List Char) : ∀ i k : Nat, k < l.length →
    (buildSlots i l).getD k dummySlot = mkSlot (i + k) (l.getD k '0') := by
  induction l with
  | nil => intro i k h; simp at h
  | cons c cs ih =>
    intro i k h
    match k with
    | 0 => simp [buildSlots]
    | k + 1 =>
      show (buildSlots (i + 1) cs).getD k dummySlot = _
      rw [ih (i + 1) k (by simpa using h), List.getD_cons_succ]
      congr 1
      omega

lemma slotOn_mkSlot (i : Nat) (c : Char) : slotOn (mkSlot i c) = (c == '1') := by
  by_cases h : c = '1' <;> simp [slotOn, mkSlot, h]

lemma foldr_buildSlots (l : List Char) : ∀ i : Nat,
    (buildSlots i l).foldr (fun s acc => (if slotOn s then 1 else 0) + 2 * acc) 0
      = decodeChars l := by
  induction l with
  | nil => intro i; rfl
  | cons c cs ih =>
    intro i
    simp only [buildSlots, List.foldr_cons, ih, decodeChars, slotOn_mkSlot]
    by_cases h : c = '1' <;> simp [h]

/-! ## Handler frame and evaluation lemmas -/

lemma handle_number_fst (sess : Session) (parsed : Option Int) :
    (handle_number sess parsed).1 = sess := by
  match parsed with
  | none => rfl
  | some a =>
    simp only [handle_number]
    split
    · rfl
    · split <;> rfl

lemma start_fst (sess : Session) : (start sess).1 = sess := by
  unfold start
  split <;> rfl

lemma bits_selected_fst (sess : Session) (payload : String) (n : Int)
    (hp : ((pySplitUnd payload.toList)[1]?).bind pyParseInt = some n) :
    (bits_selected sess payload).1 = { sess with bits := some n } := by
  unfold bits_selected
  rw [hp]
  dsimp only
  cases h : LANG_TEXTS (sess.lang.getD "ua") <;> rfl

lemma bits_selected_eq (sess : Session) (payload : String) (n : Int) (t : LangTexts)
    (hp : ((pySplitUnd payload.toList)[1]?).bind pyParseInt = some n)
    (ht : LANG_TEXTS (sess.lang.getD "ua") = some t) :
    bits_selected sess payload =
      ({ sess with bits := some n },
       some (Reply.text (t.send_number ++ " (0-" ++ toString ((2 : Int) ^ n.toNat - 1) ++ ")"))) := by
  unfold bits_selected
  rw [hp]
  dsimp only
  rw [ht]

lemma step_lang_ua (sess : Session) :
    step sess (Event.button "lang_ua") = { sess with lang := some "ua" } := rfl

lemma step_lang_cz (sess : Session) :
    step sess (Event.button "lang_cz") = { sess with lang := some "cz" } := rfl

lemma step_bits6 (sess : Session) :
    step sess (Event.button "bits_6") = { sess with bits := some 6 } := by
  show (bits_selected sess "bits_6").1 = _
  exact bits_selected_fst sess "bits_6" 6 rfl

lemma step_bits8 (sess : Session) :
    step sess (Event.button "bits_8") = { sess with bits := some 8 } := by
  show (bits_selected sess "bits_8").1 = _
  exact bits_selected_fst sess "bits_8" 8 rfl

lemma step_bits10 (sess : Session) :
    step sess (Event.button "bits_10") = { sess with bits := some 10 } := by
  show (bits_selected sess "bits_10").1 = _
  exact bits_selected_fst sess "bits_10" 10 rfl

lemma step_bits12 (sess : Session) :
    step sess (Event.button "bits_12") = { sess with bits := some 12 } := by
  show (bits_selected sess "bits_12").1 = _
  exact bits_selected_fst sess "bits_12" 12 rfl

lemma sessionInv_set_lang (s : Session) (l : String) (hs : sessionInv s = true)
    (hl : (l == "ua" || l == "cz") = true) : sessionInv { s with lang := some l } = true := by
  unfold sessionInv at hs ⊢
  rw [Bool.and_eq_true] at hs
  dsimp only
  rw [hl, Bool.true_and]
  exact hs.2

lemma sessionInv_set_bits (s : Session) (b : Int) (hs : sessionInv s = true)
    (hb : (b == 6 || b == 8 || b == 10 || b == 12) = true) :
    sessionInv { s with bits := some b } = true := by
  unfold sessionInv at hs ⊢
  rw [Bool.and_eq_true] at hs
  dsimp only
  rw [hb, Bool.and_true]
  exact hs.1

lemma step_inv (s : Session) (e : Event) (hs : sessionInv s = true)
    (he : goodEvent e = true) : sessionInv (step s e) = true := by
  cases e with
  | start => rw [show step s Event.start = (start s).1 from rfl, start_fst]; exact hs
  | text p =>
      rw [show step s (Event.text p) = (handle_number s p).1 from rfl, handle_number_fst]
      exact hs
  | button p =>
      have hp : p = "lang_ua" ∨ p = "lang_cz" ∨ p = "bits_6" ∨ p = "bits_8" ∨
          p = "bits_10" ∨ p = "bits_12" := by
        simpa [goodEvent, allowedPayloads, langKeyboard, bitsKeyboard] using he
      rcases hp with rfl | rfl | rfl | rfl | rfl | rfl
      · rw [step_lang_ua]; exact sessionInv_set_lang s "ua" hs (by decide)
      · rw [step_lang_cz]; exact sessionInv_set_lang s "cz" hs (by decide)
      · rw [step_bits6]; exact sessionInv_set_bits s 6 hs (by decide)
      · rw [step_bits8]; exact sessionInv_set_bits s 8 hs (by decide)
      · rw [step_bits10]; exact sessionInv_set_bits s 10 hs (by decide)
      · rw [step_bits12]; exact sessionInv_set_bits s 12 hs (by decide)

lemma foldl_step_inv : ∀ (es : List Event) (s : Session), sessionInv s = true →
    (∀ e ∈ es, goodEvent e = true) → sessionInv (es.foldl step s) = true := by
  intro es
  induction es with
  | nil => intro s hs _; simpa using hs
  | cons e es ih =>
      intro s hs h
      simp only [List.foldl_cons]
      exact ih (step s e) (step_inv s e hs (h e (by simp)))
        (fun x hx => h x (by simp [hx]))

lemma langOk_texts {sess : Session} (hok : langOk sess) :
    ∃ t : LangTexts, LANG_TEXTS (sess.lang.getD "ua") = some t := by
  rcases hok with h | h <;> rw [h] <;> exact ⟨_, rfl⟩

/-! ## Claims -/

/-- Claim C1: for every bit-width `w` in the offered set and every address
`0 ≤ v ≤ 2 ^ w - 1`, the pipeline of `handle_number` (width-padded binary
format, string reversal, `generate_dip_image`) yields an image with exactly
`w` slots, and slot `i` (1-indexed, left to right) is in the ON visual
state (white upper half, red lower half) iff bit `i - 1` of `v` (counted
from the least significant bit) is 1. -/
theorem render_slots_on_iff (w : Nat) (hw : w ∈ ([6, 8, 10, 12] : List Nat))
    (v : Nat) (hv : v ≤ 2 ^ w - 1) :
    (renderedImage v w).slots.length = w ∧
    ∀ i : Nat, 1 ≤ i → i ≤ w →
      (slotOn ((renderedImage v w).slots.getD (i - 1) dummySlot) = true ↔
        v.testBit (i - 1) = true) := by
  have hw1 : 1 ≤ w := by fin_cases hw <;> norm_num
  have hv' : v < 2 ^ w := by
    have h1 : 1 ≤ 2 ^ w := Nat.one_le_two_pow
    omega
  have hchars : (lsbBinary v w).toList = lsbChars v w := rfl
  have hlen : (lsbChars v w).length = w := lsbChars_length hw1 hv'
  constructor
  · show (buildSlots 0 (lsbBinary v w).toList).length = w
    rw [hchars, buildSlots_length, hlen]
  · intro i h1 h2
    have hk : i - 1 < w := by omega
    show slotOn ((buildSlots 0 (lsbBinary v w).toList).getD (i - 1) dummySlot) = true ↔ _
    rw [hchars, buildSlots_getD (lsbChars v w) 0 (i - 1) (by rw [hlen]; exact hk),
      slotOn_mkSlot, lsbChars_getD hw1 (i - 1)]
    cases hbit : v.testBit (i - 1) <;> simp

/-- Witness for C1 at the spec's concrete scenario (width 8, address 5):
8 slots, and slot 1 is ON because bit 0 of 5 is 1. -/
theorem render_slots_on_iff_witness :
    (renderedImage 5 8).slots.length = 8 ∧
    (slotOn ((renderedImage 5 8).slots.getD 0 dummySlot) = true ↔
      (5 : Nat).testBit 0 = true) :=
  ⟨(render_slots_on_iff 8 (by decide) 5 (by decide)).1,
   (render_slots_on_iff 8 (by decide) 5 (by decide)).2 1 (by decide) (by decide)⟩

/-- Claim C2: reading the ON/OFF states of the rendered slots back in slot
order and interpreting them least-significant-bit first returns the
original address: the encode-render-decode round trip is the identity. -/
theorem render_decode_roundtrip (w : Nat) (hw : w ∈ ([6, 8, 10, 12] : List Nat))
    (v : Nat) (hv : v ≤ 2 ^ w - 1) :
    decodeImage (renderedImage v w) = v := by
  have hw1 : 1 ≤ w := by fin_cases hw <;> norm_num
  unfold decodeImage
  have hs : (renderedImage v w).slots = buildSlots 0 (lsbChars v w) := rfl
  rw [hs, foldr_buildSlots, lsbChars_eq hw1, decodeChars_append,
    decodeChars_replicate_zero, decodeChars_toBitsLSB]
  simp

/-- Witness for C2 at width 8, address 5. -/
theorem render_decode_roundtrip_witness : decodeImage (renderedImage 5 8) = 5 :=
  render_decode_roundtrip 8 (by decide) 5 (by decide)

/-- Claim C3: the address handler validates in source order — unparseable
input gets the fixed "enter a valid number" message, a negative integer the
"cannot be negative" message, an integer above `2 ^ w - 1` (with `w` the
session's stored width, 8 when unset) the "too big" message naming that
maximum — each with no image and the session unchanged (which is also what
keeps the conversation parked at the address-awaiting handler); any other
integer yields the rendered image. -/
theorem handle_number_validation (sess : Session) (hb : 0 ≤ sess.bits.getD 8) :
    (handle_number sess none = (sess, Reply.text invalidNumberText)) ∧
    (∀ a : Int, a < 0 →
      handle_number sess (some a) = (sess, Reply.text negativeNumberText)) ∧
    (∀ a : Int, 0 ≤ a → (2 : Int) ^ (sess.bits.getD 8).toNat - 1 < a →
      handle_number sess (some a) = (sess, Reply.text (tooBigText (sess.bits.getD 8)))) ∧
    (∀ a : Int, 0 ≤ a → a ≤ (2 : Int) ^ (sess.bits.getD 8).toNat - 1 →
      handle_number sess (some a) =
        (sess, Reply.photo (renderedImage a.toNat (sess.bits.getD 8).toNat))) := by
  refine ⟨rfl, ?_, ?_, ?_⟩
  · intro a ha
    simp only [handle_number]
    rw [if_pos ha]
  · intro a ha hgt
    have hex : exceedsMax a (sess.bits.getD 8) = true := by
      unfold exceedsMax
      rw [if_pos hb]
      exact decide_eq_true hgt
    simp only [handle_number]
    rw [if_neg (not_lt.mpr ha), if_pos hex]
  · intro a ha hle
    have hex : exceedsMax a (sess.bits.getD 8) = false := by
      unfold exceedsMax
      rw [if_pos hb]
      exact decide_eq_false (not_lt.mpr hle)
    simp only [handle_number]
    rw [if_neg (not_lt.mpr ha), if_neg (by simp [hex])]

/-- Witness for C3: width 8 on record, input 300 exceeds 255 and draws the
fixed too-big message with the session untouched. -/
theorem handle_number_validation_witness :
    handle_number { lang := some "ua", bits := some 8 } (some 300) =
      ({ lang := some "ua", bits := some 8 }, Reply.text (tooBigText 8)) :=
  (handle_number_validation { lang := some "ua", bits := some 8 } (by decide)).2.2.1
    300 (by decide) (by decide)

/-- Claim C4 counterexample: the claim quantifies over all button payloads
matching the routing patterns, but the payload `"bits_7"` matches
`"^bits_"`, is dispatched to `bits_selected`, and stores the width 7,
which is not one of the allowed values — so the invariant fails on a
session the claim declares reachable. -/
theorem session_invariant_cex :
    startsWithChars "bits_".toList "bits_7".toList = true ∧
    (runEvents [Event.button "bits_7"]).bits = some 7 ∧
    sessionInv (runEvents [Event.button "bits_7"]) = false := by decide

/-- Claim C4 (amended): restricted to button payloads the bot's own
keyboards offer (`lang_ua`, `lang_cz`, `bits_6`, `bits_8`, `bits_10`,
`bits_12`) — the code never validates payload suffixes, so arbitrary
prefix-matching payloads can store any value — every session reachable
from a fresh session by entry, button and text events satisfies the
invariant: a stored language is one of the two supported locales and a
stored bit-width is one of 6, 8, 10, 12. -/
theorem session_invariant_reachable (es : List Event)
    (h : ∀ e ∈ es, goodEvent e = true) : sessionInv (runEvents es) = true :=
  foldl_step_inv es freshSession rfl h

/-- Witness for the amended C4 on a full conversation run. -/
theorem session_invariant_reachable_witness :
    sessionInv (runEvents [Event.start, Event.button "lang_cz",
      Event.button "bits_12", Event.text (some 100)]) = true :=
  session_invariant_reachable _ (by decide)

/-- Claim C5 counterexample: with width 8 and address 300, the session
whose language is `"cz"` gets exactly the same out-of-range message as the
`"ua"` session — a fixed Ukrainian-only string — so the error text is not
chosen between the two locales by the recorded language. -/
theorem error_text_not_localized_cex :
    (handle_number { lang := some "cz", bits := some 8 } (some 300)).2 =
      (handle_number { lang := some "ua", bits := some 8 } (some 300)).2 ∧
    (handle_number { lang := some "cz", bits := some 8 } (some 300)).2 =
      Reply.text "Число занадто велике! Максимум для 8 бітів: 255." := by decide

/-- Claim C5 (amended): every reply of the address handler — the three
error messages and the success photo alike — is independent of the
session's recorded language; the invalid and negative messages are single
fixed strings carrying both locales' text at once, and the out-of-range
message is a fixed single-locale string depending only on the stored
bit-width. -/
theorem error_text_lang_independent (l1 l2 : Option String) (b : Option Int)
    (parsed : Option Int) :
    (handle_number { lang := l1, bits := b } parsed).2 =
    (handle_number { lang := l2, bits := b } parsed).2 := by
  cases parsed with
  | none => rfl
  | some a =>
      simp only [handle_number]
      by_cases h1 : a < 0
      · rw [if_pos h1, if_pos h1]
      · rw [if_neg h1, if_neg h1]
        by_cases h2 : exceedsMax a (b.getD 8) = true
        · rw [if_pos h2, if_pos h2]
        · rw [if_neg h2, if_neg h2]

/-- Claim C6: on the entry event, a session without a language is offered
exactly the two supported language options; a session with a (supported)
language on record is shown the bit-width options directly; and in neither
case does the entry event write the session. -/
theorem start_behavior (sess : Session) :
    (start sess).1 = sess ∧
    (sess.lang = none →
      (start sess).2 =
        some (Reply.options "Виберіть мову / Zvolte jazyk:" ["lang_ua", "lang_cz"])) ∧
    (∀ l : String, sess.lang = some l → langOk sess →
      ∃ t : LangTexts, LANG_TEXTS l = some t ∧
        (start sess).2 =
          some (Reply.options t.choose_bits ["bits_6", "bits_8", "bits_10", "bits_12"])) := by
  refine ⟨start_fst sess, ?_, ?_⟩
  · intro h
    unfold start
    rw [h]
    rfl
  · intro l hl hok
    have hgetD : sess.lang.getD "ua" = l := by rw [hl]; rfl
    rcases hok with h | h <;> rw [hgetD] at h <;> subst h <;>
      exact ⟨_, rfl, by unfold start show_bit_options; rw [hl]; rfl⟩

/-- Witness for C6: a fresh session is offered the two language options and
is not modified. -/
theorem start_behavior_witness :
    (start freshSession).1 = freshSession ∧
    (start freshSession).2 =
      some (Reply.options "Виберіть мову / Zvolte jazyk:" ["lang_ua", "lang_cz"]) :=
  ⟨(start_behavior freshSession).1, (start_behavior freshSession).2.1 rfl⟩

/-- Claim C7: choosing a width `w` from the offered set records `w` in the
session and replaces the prompt with the localized `send_number`
instruction whose appended numeric maximum is `2 ^ w - 1`. -/
theorem bits_width_prompt (sess : Session) (w : Nat)
    (hw : w ∈ ([6, 8, 10, 12] : List Nat)) (hok : langOk sess) :
    ∃ t : LangTexts, LANG_TEXTS (sess.lang.getD "ua") = some t ∧
      bits_selected sess ("bits_" ++ toString w) =
        ({ sess with bits := some (w : Int) },
         some (Reply.text (t.send_number ++ " (0-" ++ toString ((2 : Int) ^ w - 1) ++ ")"))) := by
  obtain ⟨t, ht⟩ := langOk_texts hok
  fin_cases hw
  · exact ⟨t, ht, bits_selected_eq sess "bits_6" 6 t rfl ht⟩
  · exact ⟨t, ht, bits_selected_eq sess "bits_8" 8 t rfl ht⟩
  · exact ⟨t, ht, bits_selected_eq sess "bits_10" 10 t rfl ht⟩
  · exact ⟨t, ht, bits_selected_eq sess "bits_12" 12 t rfl ht⟩

/-- Witness for C7: a Czech session choosing 10 bits gets the Czech prompt
with maximum 1023 and the width stored. -/
theorem bits_width_prompt_witness :
    ∃ t : LangTexts, LANG_TEXTS (({ lang := some "cz", bits := none } : Session).lang.getD "ua") = some t ∧
      bits_selected { lang := some "cz", bits := none } ("bits_" ++ toString (10 : Nat)) =
        ({ lang := some "cz", bits := some (10 : Int) },
         some (Reply.text (t.send_number ++ " (0-" ++ toString ((2 : Int) ^ (10 : Nat) - 1) ++ ")"))) :=
  bits_width_prompt { lang := some "cz", bits := none } 10 (by decide) (Or.inr rfl)

/-- Claim C8: for a non-empty bit string of length `n` the canvas is
exactly `n * (slotWidth + spacing) + 2 * margin - spacing` wide, that is
`n * 38 + 34`, and `slotHeight + fixedVerticalPadding = 160` tall,
independent of the bit values. -/
theorem canvas_dimensions (s : String) (h : 0 < s.length) :
    (generate_dip_image s).width = s.length * (32 + 6) + 2 * 20 - 6 ∧
    (generate_dip_image s).width = s.length * 38 + 34 ∧
    (generate_dip_image s).height = 160 := by
  refine ⟨?_, ?_, rfl⟩ <;>
    · show s.length * (32 + 6) + 20 * 2 - 6 = _
      omega

/-- Witness for C8 at the 8-character string of the spec's scenario. -/
theorem canvas_dimensions_witness :
    (generate_dip_image "10100000").width = 8 * 38 + 34 ∧
    (generate_dip_image "10100000").height = 160 :=
  ⟨(canvas_dimensions "10100000" (by decide)).2.1,
   (canvas_dimensions "10100000" (by decide)).2.2⟩

/-- Claim C9: the address handler never writes the session — for every
session and every parse outcome (errors and successful rendering alike)
the session after the call is the session before it. -/
theorem handle_number_frame (sess : Session) (parsed : Option Int) :
    (handle_number sess parsed).1 = sess :=
  handle_number_fst sess parsed

/-- Claim C10: the renderer is total on arbitrary strings — in this
embedding `generate_dip_image` is a total function, producing one slot per
character of any input; every character other than `'1'` is drawn as an
OFF slot (white lower half, red upper half), and the empty string yields a
zero-slot panel of width 34. -/
theorem renderer_total (s : String) :
    (generate_dip_image s).slots.length = s.length ∧
    (∀ k : Nat, k < s.length → s.toList.getD k '0' ≠ '1' →
      ((generate_dip_image s).slots.getD k dummySlot).upperFill = "#cc0000" ∧
      ((generate_dip_image s).slots.getD k dummySlot).lowerFill = "white") ∧
    (s = "" → (generate_dip_image s).width = 34 ∧ (generate_dip_image s).slots = []) := by
  refine ⟨?_, ?_, ?_⟩
  · show (buildSlots 0 s.toList).length = s.length
    rw [buildSlots_length]
    rfl
  · intro k hk hc
    have hk' : k < s.toList.length := hk
    show ((buildSlots 0 s.toList).getD k dummySlot).upperFill = _ ∧
      ((buildSlots 0 s.toList).getD k dummySlot).lowerFill = _
    rw [buildSlots_getD s.toList 0 k hk']
    simp only [String.toList, List.getD_eq_getElem?_getD] at hc
    constructor <;> simp [mkSlot, hc]
  · intro h
    subst h
    exact ⟨rfl, rfl⟩

/-- Witness for C10: the character `'x'` is rendered as an OFF slot. -/
theorem renderer_total_witness :
    ((generate_dip_image "x1").slots.getD 0 dummySlot).upperFill = "#cc0000" ∧
    ((generate_dip_image "x1").slots.getD 0 dummySlot).lowerFill = "white" :=
  (renderer_total "x1").2.1 0 (by decide) (by decide)
